import Mathlib

/-!
Verification of the FCD (Foreign Currency Deposit) tracker's core:
the statistics engine `calculateFCDStats` (`src/api/fcd/calculations.ts`)
and the entry validator inside `handleAddEntry`
(`src/pages/FCDDashboard.tsx`).

Shallow embedding conventions:
* JS `number` values are modelled as exact rationals (`ℚ`); the spec fixes
  real/decimal semantics ("no rounding is applied inside the engine").
* `null`-able fields (`thb`, `rate`, `note`) are `Option`s.
* `status` is a free-form string, exactly as in the source.
* `tx_type` is the closed string union `FCDTxType`, modelled as an inductive.
-/

namespace FCD

/-- Closed transaction-type enumeration, `FCDTxType` in `src/api/fcd/types.ts`:
`"FX" | "GOLD_BUY" | "GOLD_SELL" | "INTEREST" | "TRANSFER"`. -/
inductive FCDTxType where
  | FX
  | GOLD_BUY
  | GOLD_SELL
  | INTEREST
  | TRANSFER
deriving DecidableEq

/-- `FCDEntry` from `src/api/fcd/types.ts`.  `usd` is a required number;
`thb` and `rate` are `number | null`; `note` is `string | null`. -/
structure FCDEntry where
  id : Int
  tx_type : FCDTxType
  status : String
  date : String
  usd : ℚ
  thb : Option ℚ
  rate : Option ℚ
  note : Option String
deriving DecidableEq

/-- `FCDStats` from `src/api/fcd/types.ts`. -/
@[ext] structure FCDStats where
  total_in : ℚ
  total_out : ℚ
  cash_remain : ℚ
  gold_profit : ℚ
  interest_income : ℚ
  total_usd : ℚ
  total_thb : ℚ
  weighted_avg_rate : ℚ
  total_value_thb : ℚ
  total_value_usd : ℚ
  total_entries : Nat
  active_entries : Nat
deriving DecidableEq

/-- JS `list.reduce((sum, e) => sum + f(e), 0)`. -/
def reduceSum (f : FCDEntry → ℚ) (l : List FCDEntry) : ℚ :=
  l.foldl (fun s e => s + f e) 0

/-- The guard of the weighted-rate loop in `calculateFCDStats`:
`entry.rate && entry.usd && Number(entry.rate) > 0`.
JS truthiness: `entry.rate` is truthy iff it is non-null and non-zero,
`entry.usd` is truthy iff it is non-zero (no NaN in the rational model). -/
def rateCond (e : FCDEntry) : Bool :=
  match e.rate with
  | some r => decide (r ≠ 0 ∧ e.usd ≠ 0 ∧ 0 < r)
  | none => false

/-- One iteration of the `entries.forEach` loop in `calculateFCDStats`,
threading the accumulator pair `(totalUsdForRate, weightedRateSum)`. -/
def rateStep (acc : ℚ × ℚ) (e : FCDEntry) : ℚ × ℚ :=
  if rateCond e then (acc.1 + e.usd, acc.2 + e.usd * e.rate.getD 0) else acc

/-- `calculateFCDStats` from `src/api/fcd/calculations.ts`, embedded clause by
clause.  Notes on JS coercions present in the source:
* `Number(e.usd)` is the identity on a number field;
* `Math.abs(Number(e.usd) || 0)` is `|e.usd|` (the `|| 0` only rewrites NaN);
* `Number(e.thb) || 0` is `e.thb.getD 0` (`Number(null) = 0`);
* `(e.tx_type || '').trim() === 'GOLD_SELL'` is equality on the closed
  `tx_type` union, whose values carry no whitespace and are never falsy. -/
def calculateFCDStats (entries : List FCDEntry) : FCDStats :=
  let total_in :=
    reduceSum (·.usd)
      (entries.filter fun e => decide (e.status = "IN" ∨ e.status = "Interest"))
  let total_out :=
    reduceSum (·.usd) (entries.filter fun e => decide (e.status = "OUT"))
  let cash_remain := total_in - total_out
  let gold_sell :=
    reduceSum (fun e => |e.usd|)
      (entries.filter fun e => decide (e.tx_type = FCDTxType.GOLD_SELL))
  let gold_buy :=
    reduceSum (fun e => |e.usd|)
      (entries.filter fun e => decide (e.tx_type = FCDTxType.GOLD_BUY))
  let gold_profit := gold_sell - gold_buy
  let interest_income :=
    reduceSum (·.usd) (entries.filter fun e => decide (e.status = "Interest"))
  let total_thb := reduceSum (fun e => e.thb.getD 0) entries
  let acc := entries.foldl rateStep (0, 0)
  let weighted_avg_rate := if 0 < acc.1 then acc.2 / acc.1 else 0
  let total_value_thb := total_thb + cash_remain * weighted_avg_rate
  { total_in := total_in
    total_out := total_out
    cash_remain := cash_remain
    gold_profit := gold_profit
    interest_income := interest_income
    total_usd := cash_remain
    total_thb := total_thb
    weighted_avg_rate := weighted_avg_rate
    total_value_thb := total_value_thb
    total_value_usd :=
      cash_remain + (if 0 < weighted_avg_rate then total_thb / weighted_avg_rate else 0)
    total_entries := entries.length
    active_entries :=
      (entries.filter fun e => decide (e.status = "IN" ∨ e.status = "Interest")).length }

/-! ### Spec-side aggregate definitions (from §4.2 of the spec) -/

/-- Spec: sum of `usd` over entries with `status ∈ {IN, Interest}`. -/
def sumIn (l : List FCDEntry) : ℚ :=
  ((l.filter fun e => decide (e.status = "IN" ∨ e.status = "Interest")).map (·.usd)).sum

/-- Spec: sum of `usd` over entries with `status = OUT`. -/
def sumOut (l : List FCDEntry) : ℚ :=
  ((l.filter fun e => decide (e.status = "OUT")).map (·.usd)).sum

/-- Spec: sum of `usd` over entries with `status = Interest`. -/
def sumInterest (l : List FCDEntry) : ℚ :=
  ((l.filter fun e => decide (e.status = "Interest")).map (·.usd)).sum

/-- Spec: sum of `abs(usd)` over entries with `tx_type = GOLD_SELL`. -/
def goldSellTotal (l : List FCDEntry) : ℚ :=
  ((l.filter fun e => decide (e.tx_type = FCDTxType.GOLD_SELL)).map (fun e => |e.usd|)).sum

/-- Spec: sum of `abs(usd)` over entries with `tx_type = GOLD_BUY`. -/
def goldBuyTotal (l : List FCDEntry) : ℚ :=
  ((l.filter fun e => decide (e.tx_type = FCDTxType.GOLD_BUY)).map (fun e => |e.usd|)).sum

/-- Spec: sum of `thb` over all entries, absent/null read as zero. -/
def thbSum (l : List FCDEntry) : ℚ :=
  (l.map (fun e => e.thb.getD 0)).sum

/-- Spec: `W = Σ usd` over entries whose rate is present and strictly
positive (usd is a required field, hence always present). -/
def rateW (l : List FCDEntry) : ℚ :=
  ((l.filter fun e => decide (0 < e.rate.getD 0)).map (·.usd)).sum

/-- Spec: `R = Σ usd × rate` over entries whose rate is present and
strictly positive. -/
def rateR (l : List FCDEntry) : ℚ :=
  ((l.filter fun e => decide (0 < e.rate.getD 0)).map (fun e => e.usd * e.rate.getD 0)).sum

/-- Spec: count of entries with `status ∈ {IN, Interest}`. -/
def activeCount (l : List FCDEntry) : Nat :=
  (l.filter fun e => decide (e.status = "IN" ∨ e.status = "Interest")).length

/-- The statistics record as §4.2 of the spec defines it, field by field. -/
def fcdStatsSpec (l : List FCDEntry) : FCDStats :=
  let w := if 0 < rateW l then rateR l / rateW l else 0
  { total_in := sumIn l
    total_out := sumOut l
    cash_remain := sumIn l - sumOut l
    gold_profit := goldSellTotal l - goldBuyTotal l
    interest_income := sumInterest l
    total_usd := sumIn l - sumOut l
    total_thb := thbSum l
    weighted_avg_rate := w
    total_value_thb := thbSum l + (sumIn l - sumOut l) * w
    total_value_usd := (sumIn l - sumOut l) + (if 0 < w then thbSum l / w else 0)
    total_entries := l.length
    active_entries := activeCount l }

/-- The all-zero statistics record. -/
def zeroStats : FCDStats :=
  { total_in := 0, total_out := 0, cash_remain := 0, gold_profit := 0,
    interest_income := 0, total_usd := 0, total_thb := 0,
    weighted_avg_rate := 0, total_value_thb := 0, total_value_usd := 0,
    total_entries := 0, active_entries := 0 }

/-! ### Validator (from `handleAddEntry` in `src/pages/FCDDashboard.tsx`) -/

/-- The form draft `entryData` in `FCDDashboard.tsx` (`thb`/`rate` are
`number | null` form state, `note` a plain string). -/
structure EntryDraft where
  tx_type : FCDTxType
  status : String
  date : String
  usd : ℚ
  thb : Option ℚ
  rate : Option ℚ
  note : String
deriving DecidableEq

/-- `NewFCDEntry` from `src/api/fcd/types.ts`, the canonical payload the
validator submits to storage. -/
structure NewFCDEntry where
  tx_type : FCDTxType
  status : String
  date : String
  usd : ℚ
  thb : Option ℚ
  rate : Option ℚ
  note : String
deriving DecidableEq

/-- The validation-and-normalization core of `handleAddEntry` in
`FCDDashboard.tsx`: each early `return`-after-`alert` is `none`; acceptance
builds the payload with `thb`/`rate` forced to `null` for non-FX types.
`(x ?? 0) <= 0` is `x.getD 0 ≤ 0`; `x != null && x !== 0` is
`x ≠ none ∧ x ≠ some 0`.  The local-time to UTC-offset date reformatting is
string presentation of the same instant and is passed through unchanged. -/
def handleAddEntry (d : EntryDraft) : Option NewFCDEntry :=
  if d.tx_type = FCDTxType.FX ∧ (d.rate.getD 0 ≤ 0 ∨ d.thb.getD 0 ≤ 0) then
    none
  else if d.tx_type ≠ FCDTxType.FX ∧ d.thb ≠ none ∧ d.thb ≠ some 0 then
    none
  else if d.tx_type ≠ FCDTxType.FX ∧ d.rate ≠ none ∧ d.rate ≠ some 0 then
    none
  else if d.usd ≤ 0 then
    none
  else
    some { tx_type := d.tx_type
           status := d.status
           date := d.date
           usd := d.usd
           thb := if d.tx_type = FCDTxType.FX then d.thb else none
           rate := if d.tx_type = FCDTxType.FX then d.rate else none
           note := d.note }

/-! ### Concrete entries used by the spec's worked examples -/

/-- FX inflow, `usd = 100`, `rate = 35` (spec §8 example 2). -/
def exFX1 : FCDEntry :=
  { id := 1, tx_type := FCDTxType.FX, status := "IN", date := "2026-01-01T00:00:00+07:00",
    usd := 100, thb := none, rate := some 35, note := none }

/-- FX inflow, `usd = 200`, `rate = 36` (spec §8 example 2). -/
def exFX2 : FCDEntry :=
  { id := 2, tx_type := FCDTxType.FX, status := "IN", date := "2026-01-02T00:00:00+07:00",
    usd := 200, thb := none, rate := some 36, note := none }

/-- Gold purchase, `usd = 500`, outflow (spec §8 example 3). -/
def exGoldBuy : FCDEntry :=
  { id := 3, tx_type := FCDTxType.GOLD_BUY, status := "OUT", date := "2026-01-03T00:00:00+07:00",
    usd := 500, thb := none, rate := none, note := none }

/-- Gold sale, `usd = 600`, inflow (spec §8 example 3). -/
def exGoldSell : FCDEntry :=
  { id := 4, tx_type := FCDTxType.GOLD_SELL, status := "IN", date := "2026-01-04T00:00:00+07:00",
    usd := 600, thb := none, rate := none, note := none }

/-- Interest accrual, `usd = 50`, status `Interest` (spec §8 example 4). -/
def exInterest : FCDEntry :=
  { id := 5, tx_type := FCDTxType.INTEREST, status := "Interest", date := "2026-01-05T00:00:00+07:00",
    usd := 50, thb := none, rate := none, note := none }

/-- Draft `{tx_type: FX, usd: 100, thb: null, rate: 35}` (spec §8 example 5). -/
def fxRejectDraft : EntryDraft :=
  { tx_type := FCDTxType.FX, status := "IN", date := "2026-02-03T15:30",
    usd := 100, thb := none, rate := some 35, note := "" }

/-- Draft `{tx_type: GOLD_BUY, usd: 100, thb: 0, rate: 0}` (spec §8 example 6). -/
def goldDraft : EntryDraft :=
  { tx_type := FCDTxType.GOLD_BUY, status := "OUT", date := "2026-02-03T15:30",
    usd := 100, thb := some 0, rate := some 0, note := "" }

/-- The canonical entry `handleAddEntry` produces for `goldDraft`. -/
def goldCanonical : NewFCDEntry :=
  { tx_type := FCDTxType.GOLD_BUY, status := "OUT", date := "2026-02-03T15:30",
    usd := 100, thb := none, rate := none, note := "" }

/-! ### Helper lemmas -/

theorem foldl_add_eq (f : FCDEntry → ℚ) (a : ℚ) (l : List FCDEntry) :
    l.foldl (fun s e => s + f e) a = a + (l.map f).sum := by
  induction l generalizing a with
  | nil => simp
  | cons e t ih =>
    rw [List.foldl_cons, ih, List.map_cons, List.sum_cons]
    ring

theorem reduceSum_eq (f : FCDEntry → ℚ) (l : List FCDEntry) :
    reduceSum f l = (l.map f).sum := by
  rw [reduceSum, foldl_add_eq, zero_add]

theorem rateCond_iff (e : FCDEntry) :
    rateCond e = true ↔ (0 < e.rate.getD 0 ∧ e.usd ≠ 0) := by
  cases h : e.rate with
  | none => simp [rateCond, h]
  | some r =>
    simp only [rateCond, h, Option.getD_some, decide_eq_true_eq]
    exact ⟨fun ⟨_, hu, hr⟩ => ⟨hr, hu⟩, fun ⟨hr, hu⟩ => ⟨ne_of_gt hr, hu, hr⟩⟩

theorem rateFold (l : List FCDEntry) (a b : ℚ) :
    l.foldl rateStep (a, b) =
      (a + ((l.filter rateCond).map (·.usd)).sum,
       b + ((l.filter rateCond).map (fun e => e.usd * e.rate.getD 0)).sum) := by
  induction l generalizing a b with
  | nil => simp
  | cons e t ih =>
    rw [List.foldl_cons, List.filter_cons]
    by_cases hc : rateCond e
    · rw [rateStep, if_pos hc, ih]
      simp only [hc, if_true, List.map_cons, List.sum_cons, Prod.mk.injEq]
      constructor <;> ring
    · rw [rateStep, if_neg hc, ih]
      simp only [hc, Bool.false_eq_true, if_false]

theorem rateW_code_eq (l : List FCDEntry) :
    ((l.filter rateCond).map (·.usd)).sum = rateW l := by
  induction l with
  | nil => rfl
  | cons e t ih =>
    rw [rateW, List.filter_cons, List.filter_cons]
    by_cases hr : 0 < e.rate.getD 0
    · by_cases hu : e.usd = 0
      · have hc : ¬ rateCond e = true := by
          rw [rateCond_iff]; exact fun h => h.2 hu
        simp only [hc, Bool.false_eq_true, if_false, hr, decide_True, if_true,
          List.map_cons, List.sum_cons, hu, zero_add, ih, rateW]
      · have hc : rateCond e = true := (rateCond_iff e).2 ⟨hr, hu⟩
        simp only [hc, if_true, hr, decide_True, if_true, List.map_cons,
          List.sum_cons, ih, rateW]
    · have hc : ¬ rateCond e = true := by
        rw [rateCond_iff]; exact fun h => hr h.1
      simp only [hc, Bool.false_eq_true, if_false, hr, decide_False, ih, rateW]

theorem rateR_code_eq (l : List FCDEntry) :
    ((l.filter rateCond).map (fun e => e.usd * e.rate.getD 0)).sum = rateR l := by
  induction l with
  | nil => rfl
  | cons e t ih =>
    rw [rateR, List.filter_cons, List.filter_cons]
    by_cases hr : 0 < e.rate.getD 0
    · by_cases hu : e.usd = 0
      · have hc : ¬ rateCond e = true := by
          rw [rateCond_iff]; exact fun h => h.2 hu
        simp only [hc, Bool.false_eq_true, if_false, hr, decide_True, if_true,
          List.map_cons, List.sum_cons, hu, zero_mul, zero_add, ih, rateR]
      · have hc : rateCond e = true := (rateCond_iff e).2 ⟨hr, hu⟩
        simp only [hc, if_true, hr, decide_True, if_true, List.map_cons,
          List.sum_cons, ih, rateR]
    · have hc : ¬ rateCond e = true := by
        rw [rateCond_iff]; exact fun h => hr h.1
      simp only [hc, Bool.false_eq_true, if_false, hr, decide_False, ih, rateR]

/-- The engine, pass by pass, computes exactly the spec's aggregates. -/
theorem calculateFCDStats_eq_spec (l : List FCDEntry) :
    calculateFCDStats l = fcdStatsSpec l := by
  rw [calculateFCDStats, fcdStatsSpec]
  simp only [reduceSum_eq, rateFold, zero_add, rateW_code_eq, rateR_code_eq]
  rfl

/-! ### Claim theorems -/

/-- Claim C1: for every entry list, `weighted_avg_rate` equals `R / W`, where
over exactly the entries whose rate is present and strictly positive (and
whose `usd` is present — `usd` is a required field) `W` is the sum of `usd`
and `R` the sum of `usd × rate`; when `W` is not positive the result is the
defined value `0`, no division performed.  For the two FX entries
`{usd:100, rate:35}` and `{usd:200, rate:36}` the rate is within `1e-4` of
`35.6667`, `total_in = 300` and `cash_remain = 300`. -/
theorem weighted_avg_rate_spec :
    (∀ l : List FCDEntry,
        (calculateFCDStats l).weighted_avg_rate =
          if 0 < rateW l then rateR l / rateW l else 0)
    ∧ |(calculateFCDStats [exFX1, exFX2]).weighted_avg_rate - 35.6667| ≤ 1e-4
    ∧ (calculateFCDStats [exFX1, exFX2]).total_in = 300
    ∧ (calculateFCDStats [exFX1, exFX2]).cash_remain = 300 := by
  refine ⟨fun l => ?_, ?_, ?_, ?_⟩
  · rw [calculateFCDStats_eq_spec]
    rfl
  · rw [calculateFCDStats_eq_spec]
    simp [fcdStatsSpec, rateW, rateR, exFX1, exFX2]
    norm_num [abs_le]
  · rw [calculateFCDStats_eq_spec]
    simp [fcdStatsSpec, sumIn, exFX1, exFX2]
    norm_num
  · rw [calculateFCDStats_eq_spec]
    simp [fcdStatsSpec, sumIn, sumOut, exFX1, exFX2]
    norm_num

/-- Claim C2: `total_in` sums `usd` over `status ∈ {IN, Interest}`,
`total_out` over `status = OUT`, `cash_remain = total_in − total_out`;
other status values count in neither sum; an `Interest` entry contributes
simultaneously to `total_in`, `interest_income` and `active_entries`
(the `usd:50` Interest example gives 50, 50 and 1). -/
theorem flow_totals_spec :
    (∀ l : List FCDEntry,
        (calculateFCDStats l).total_in = sumIn l ∧
        (calculateFCDStats l).total_out = sumOut l ∧
        (calculateFCDStats l).cash_remain = sumIn l - sumOut l ∧
        (calculateFCDStats l).interest_income = sumInterest l ∧
        (calculateFCDStats l).active_entries = activeCount l)
    ∧ (calculateFCDStats [exInterest]).total_in = 50
    ∧ (calculateFCDStats [exInterest]).interest_income = 50
    ∧ (calculateFCDStats [exInterest]).active_entries = 1 := by
  refine ⟨fun l => ?_, ?_, ?_, ?_⟩
  · rw [calculateFCDStats_eq_spec]
    exact ⟨rfl, rfl, rfl, rfl, rfl⟩
  · rw [calculateFCDStats_eq_spec]
    simp [fcdStatsSpec, sumIn, exInterest]
  · rw [calculateFCDStats_eq_spec]
    simp [fcdStatsSpec, sumInterest, exInterest]
  · rw [calculateFCDStats_eq_spec]
    simp [fcdStatsSpec, activeCount, exInterest]

/-- Claim C3: the statistics are order independent — any permutation of the
input entry list yields the same value for every aggregate field. -/
theorem calculateFCDStats_perm_invariant (l₁ l₂ : List FCDEntry)
    (h : l₁.Perm l₂) : calculateFCDStats l₁ = calculateFCDStats l₂ := by
  rw [calculateFCDStats_eq_spec, calculateFCDStats_eq_spec]
  have hin : sumIn l₁ = sumIn l₂ := ((h.filter _).map _).sum_eq
  have hout : sumOut l₁ = sumOut l₂ := ((h.filter _).map _).sum_eq
  have hint : sumInterest l₁ = sumInterest l₂ := ((h.filter _).map _).sum_eq
  have hgs : goldSellTotal l₁ = goldSellTotal l₂ := ((h.filter _).map _).sum_eq
  have hgb : goldBuyTotal l₁ = goldBuyTotal l₂ := ((h.filter _).map _).sum_eq
  have hthb : thbSum l₁ = thbSum l₂ := (h.map _).sum_eq
  have hW : rateW l₁ = rateW l₂ := ((h.filter _).map _).sum_eq
  have hR : rateR l₁ = rateR l₂ := ((h.filter _).map _).sum_eq
  have hlen : l₁.length = l₂.length := h.length_eq
  have hact : activeCount l₁ = activeCount l₂ := (h.filter _).length_eq
  simp only [fcdStatsSpec, hin, hout, hint, hgs, hgb, hthb, hW, hR, hlen, hact]

/-- Witness for C3 at a concrete two-element permutation. -/
theorem calculateFCDStats_perm_invariant_witness :
    calculateFCDStats [exGoldBuy, exGoldSell] =
      calculateFCDStats [exGoldSell, exGoldBuy] :=
  calculateFCDStats_perm_invariant _ _ (List.Perm.swap exGoldSell exGoldBuy [])

/-- Claim C4: `gold_profit` is the sum of `abs(usd)` over `GOLD_SELL` entries
minus the sum of `abs(usd)` over `GOLD_BUY` entries; for one
`GOLD_BUY usd:500 (OUT)` plus one `GOLD_SELL usd:600 (IN)` this gives
`gold_profit = 100`, `total_in = 600`, `total_out = 500`,
`cash_remain = 100`. -/
theorem gold_profit_spec :
    (∀ l : List FCDEntry,
        (calculateFCDStats l).gold_profit = goldSellTotal l - goldBuyTotal l)
    ∧ (calculateFCDStats [exGoldBuy, exGoldSell]).gold_profit = 100
    ∧ (calculateFCDStats [exGoldBuy, exGoldSell]).total_in = 600
    ∧ (calculateFCDStats [exGoldBuy, exGoldSell]).total_out = 500
    ∧ (calculateFCDStats [exGoldBuy, exGoldSell]).cash_remain = 100 := by
  refine ⟨fun l => ?_, ?_, ?_, ?_, ?_⟩
  · rw [calculateFCDStats_eq_spec]
    rfl
  · rw [calculateFCDStats_eq_spec]
    simp [fcdStatsSpec, goldSellTotal, goldBuyTotal, exGoldBuy, exGoldSell]
    norm_num
  · rw [calculateFCDStats_eq_spec]
    simp [fcdStatsSpec, sumIn, exGoldBuy, exGoldSell]
  · rw [calculateFCDStats_eq_spec]
    simp [fcdStatsSpec, sumOut, exGoldBuy, exGoldSell]
  · rw [calculateFCDStats_eq_spec]
    simp [fcdStatsSpec, sumIn, sumOut, exGoldBuy, exGoldSell]
    norm_num

/-- Claim C5: `total_thb` sums `thb` with null read as zero;
`total_value_thb = total_thb + cash_remain × weighted_avg_rate`;
`total_value_usd = cash_remain + total_thb / weighted_avg_rate` when the
rate is positive, else `cash_remain + 0`. -/
theorem thb_and_value_fields_spec (l : List FCDEntry) :
    (calculateFCDStats l).total_thb = thbSum l ∧
    (calculateFCDStats l).total_value_thb =
      (calculateFCDStats l).total_thb +
        (calculateFCDStats l).cash_remain * (calculateFCDStats l).weighted_avg_rate ∧
    (calculateFCDStats l).total_value_usd =
      (calculateFCDStats l).cash_remain +
        (if 0 < (calculateFCDStats l).weighted_avg_rate then
          (calculateFCDStats l).total_thb / (calculateFCDStats l).weighted_avg_rate
        else 0) := by
  rw [calculateFCDStats_eq_spec]
  exact ⟨rfl, rfl, rfl⟩

/-- Claim C6: the engine is total — every entry list yields a `FCDStats`
value (the embedding is a total function, mirroring a source with no throw
path) — and on the empty list every numeric field is zero, no division
performed. -/
theorem computeStats_total_and_empty :
    (∀ l : List FCDEntry, ∃ s : FCDStats, calculateFCDStats l = s)
    ∧ calculateFCDStats [] = zeroStats := by
  refine ⟨fun l => ⟨calculateFCDStats l, rfl⟩, ?_⟩
  rw [calculateFCDStats_eq_spec]
  simp [fcdStatsSpec, zeroStats, sumIn, sumOut, sumInterest, goldSellTotal,
    goldBuyTotal, thbSum, rateW, rateR, activeCount]

/-- Claim C7: the engine is deterministic and side-effect free — two
invocations on the same unmodified list return identical stats, and the
input list is unchanged.  In the embedding the source is a function of the
entry-list value alone (the original assigns neither to `entries` nor to
any entry, only to its own local accumulators), so a second call on the
same list value is the same application. -/
theorem computeStats_deterministic (l l' : List FCDEntry) (h : l = l') :
    calculateFCDStats l = calculateFCDStats l' ∧ l = l' := by
  subst h
  exact ⟨rfl, rfl⟩

/-- Witness for C7 at a concrete list. -/
theorem computeStats_deterministic_witness :
    calculateFCDStats [exFX1] = calculateFCDStats [exFX1] ∧
      ([exFX1] : List FCDEntry) = [exFX1] :=
  computeStats_deterministic [exFX1] [exFX1] rfl

/-- Claim C8: for an FX draft the validator accepts exactly when
`rate > 0`, `thb > 0` (null read as 0) and `usd > 0`; otherwise it rejects,
producing no canonical entry — nothing is submitted to storage. -/
theorem handleAddEntry_fx_spec (d : EntryDraft) (h : d.tx_type = FCDTxType.FX) :
    (handleAddEntry d).isSome ↔
      (0 < d.rate.getD 0 ∧ 0 < d.thb.getD 0 ∧ 0 < d.usd) := by
  rw [handleAddEntry]
  by_cases h1 : d.rate.getD 0 ≤ 0 ∨ d.thb.getD 0 ≤ 0
  · rw [if_pos ⟨h, h1⟩]
    simp only [Option.isSome_none, Bool.false_eq_true, false_iff]
    rintro ⟨hr, ht, -⟩
    rcases h1 with h1 | h1
    · exact absurd hr (not_lt.2 h1)
    · exact absurd ht (not_lt.2 h1)
  · rw [if_neg (fun hc => h1 hc.2), if_neg (fun hc => hc.1 h),
      if_neg (fun hc => hc.1 h)]
    push_neg at h1
    by_cases h2 : d.usd ≤ 0
    · rw [if_pos h2]
      simp only [Option.isSome_none, Bool.false_eq_true, false_iff]
      rintro ⟨-, -, hu⟩
      exact absurd hu (not_lt.2 h2)
    · rw [if_neg h2]
      simp only [Option.isSome_some, true_iff]
      exact ⟨h1.1, h1.2, not_le.1 h2⟩

/-- Witness for C8: the draft `{tx_type: FX, usd:100, thb:null, rate:35}`
is rejected. -/
theorem handleAddEntry_fx_witness :
    handleAddEntry fxRejectDraft = none := by
  have h := handleAddEntry_fx_spec fxRejectDraft rfl
  have hP : ¬(0 < fxRejectDraft.rate.getD 0 ∧ 0 < fxRejectDraft.thb.getD 0 ∧
      0 < fxRejectDraft.usd) := by decide
  exact Option.not_isSome_iff_eq_none.1 (fun hs => hP (h.1 hs))

/-- Claim C9: for a non-FX draft the validator rejects when `thb` is present
and non-zero, or `rate` is present and non-zero, or `usd` is not positive;
otherwise it accepts and the canonical entry carries `thb = null` and
`rate = null` regardless of the draft. -/
theorem handleAddEntry_nonfx_spec (d : EntryDraft) (h : d.tx_type ≠ FCDTxType.FX) :
    ((handleAddEntry d).isSome ↔
      ((d.thb = none ∨ d.thb = some 0) ∧ (d.rate = none ∨ d.rate = some 0) ∧
        0 < d.usd))
    ∧ ∀ c : NewFCDEntry, handleAddEntry d = some c → c.thb = none ∧ c.rate = none := by
  rw [handleAddEntry, if_neg (fun hc => h hc.1)]
  by_cases ht : d.thb ≠ none ∧ d.thb ≠ some 0
  · rw [if_pos ⟨h, ht⟩]
    refine ⟨?_, ?_⟩
    · simp only [Option.isSome_none, Bool.false_eq_true, false_iff]
      rintro ⟨hthb, -, -⟩
      rcases hthb with h0 | h0
      · exact ht.1 h0
      · exact ht.2 h0
    · rintro c hc
      cases hc
  · rw [if_neg (fun hc => ht hc.2)]
    by_cases hr : d.rate ≠ none ∧ d.rate ≠ some 0
    · rw [if_pos ⟨h, hr⟩]
      refine ⟨?_, ?_⟩
      · simp only [Option.isSome_none, Bool.false_eq_true, false_iff]
        rintro ⟨-, hrr, -⟩
        rcases hrr with h0 | h0
        · exact hr.1 h0
        · exact hr.2 h0
      · rintro c hc
        cases hc
    · rw [if_neg (fun hc => hr hc.2)]
      rw [not_and_or, not_not, not_not] at ht hr
      by_cases hu : d.usd ≤ 0
      · rw [if_pos hu]
        refine ⟨?_, ?_⟩
        · simp only [Option.isSome_none, Bool.false_eq_true, false_iff]
          rintro ⟨-, -, hup⟩
          exact absurd hup (not_lt.2 hu)
        · rintro c hc
          cases hc
      · rw [if_neg hu]
        refine ⟨?_, ?_⟩
        · simp only [Option.isSome_some, true_iff]
          exact ⟨ht, hr, not_le.1 hu⟩
        · rintro c hc
          injection hc with hc
          subst hc
          constructor
          · show (if d.tx_type = FCDTxType.FX then d.thb else none) = none
            exact if_neg h
          · show (if d.tx_type = FCDTxType.FX then d.rate else none) = none
            exact if_neg h

/-- Witness for C9: the draft `{tx_type: GOLD_BUY, usd:100, thb:0, rate:0}`
is accepted and its canonical entry has `thb = null`, `rate = null`. -/
theorem handleAddEntry_nonfx_witness :
    handleAddEntry goldDraft = some goldCanonical ∧
      goldCanonical.thb = none ∧ goldCanonical.rate = none := by
  have hsome : handleAddEntry goldDraft = some goldCanonical := by decide
  exact ⟨hsome, (handleAddEntry_nonfx_spec goldDraft (by decide)).2 goldCanonical hsome⟩

/-- Claim C10: the legacy `total_usd` field is always an exact alias of
`cash_remain` (the source maps `total_usd: cash_remain`). -/
theorem total_usd_eq_cash_remain (l : List FCDEntry) :
    (calculateFCDStats l).total_usd = (calculateFCDStats l).cash_remain := rfl

end FCD
